import Mathlib

/-!
# big3-record: verification of the data-normalization pipeline

Shallow embedding of the big3-record repository (src/timeRange.ts,
src/ChartCard.tsx, src/sheetApi.ts, src/App.tsx).

Modelling conventions:
* JavaScript numbers are modelled by `ℚ` (every value that actually flows
  through the pipeline is a finite double; quantities are small enough that
  double rounding is not observable in the verified properties).
  Results of the `Number(·)` coercion, which can be `NaN` or `±Infinity`,
  are modelled by `JSNum`.
* `Math.round` is round-half-up, i.e. `⌊q + 1/2⌋`.
* `new Date(string)` for strings that are not handled by the epoch branch is
  ECMAScript implementation-defined; it is modelled by an explicit parameter
  `g : String → Option ℤ` returning the parsed time value in milliseconds
  (`none` for an Invalid Date).  Theorems quantify over `g`, and concrete
  instances are supplied where a scenario fixes particular date strings.
* `new Date(number)` clips the time value at `±8.64e15` and truncates to an
  integer number of milliseconds (`jsDateFromMs`).
* `Array.prototype.sort` with a numeric comparator is a stable sort; it is
  modelled by `List.insertionSort`, which is stable and sorts with respect to
  the comparator relation.  A comparator result of `NaN`
  (`Infinity - Infinity`) is treated as `0` by the JS sort, which coincides
  with the key order used here (`none` keys compare equal).
-/

attribute [local semireducible] Rat.add Rat.mul Rat.inv Rat.sub

/-- Result of the JavaScript `Number(·)` coercion: `NaN`, a signed infinity,
or a finite value. -/
inductive JSNum where
  | nan : JSNum
  | inf : Bool → JSNum
  | fin : ℚ → JSNum
deriving DecidableEq, Repr

/-- JavaScript whitespace as used by `String.prototype.trim` /
`StringToNumber` (restricted to the ASCII white space characters; the exotic
Unicode space characters do not occur in the verified scenarios). -/
def isJsSpace (c : Char) : Bool :=
  c = ' ' || c = '\t' || c = '\n' || c = '\r'

/-- Model of `String.prototype.trim`. -/
def jsTrim (s : String) : String :=
  String.mk (((s.toList.dropWhile isJsSpace).reverse.dropWhile isJsSpace).reverse)

/-- Numeric value of a list of decimal digit characters. -/
def natOfDigits (l : List Char) : ℕ :=
  l.foldl (fun n c => 10 * n + (c.toNat - 48)) 0

/-- Exponent suffix of a JS decimal literal: empty, or `e`/`E`, an optional
sign and a nonempty digit string.  Returns the scaled mantissa. -/
def expPart (base : ℚ) (l : List Char) : Option ℚ :=
  match l with
  | [] => some base
  | c :: rest =>
    if c = 'e' || c = 'E' then
      let (neg, ds) : Bool × List Char :=
        match rest with
        | '-' :: r => (true, r)
        | '+' :: r => (false, r)
        | r => (false, r)
      if ds ≠ [] && ds.all Char.isDigit then
        let e := natOfDigits ds
        some (if neg then base / 10 ^ e else base * 10 ^ e)
      else none
    else none

/-- Unsigned decimal literal of the JS `StringToNumber` grammar:
`digits [. digits] [exp]` or `. digits [exp]`. -/
def decParse (l : List Char) : Option ℚ :=
  let ip := l.takeWhile Char.isDigit
  let rest := l.dropWhile Char.isDigit
  match rest with
  | [] => if ip = [] then none else some (natOfDigits ip)
  | '.' :: rest2 =>
    let fp := rest2.takeWhile Char.isDigit
    let rest3 := rest2.dropWhile Char.isDigit
    if ip = [] && fp = [] then none
    else expPart ((natOfDigits ip : ℚ) + (natOfDigits fp : ℚ) / 10 ^ fp.length) rest3
  | _ => if ip = [] then none else expPart (natOfDigits ip) rest

/-- Model of the JavaScript `Number(string)` coercion (`StringToNumber`),
restricted to decimal literals and `Infinity`; the hexadecimal, octal and
binary literal forms are not modelled (they map to `NaN` here) since no
spreadsheet cell uses them. -/
def jsStrToNum (s : String) : JSNum :=
  let t := jsTrim s
  if t = "" then .fin 0
  else
    let cs := t.toList
    let (neg, body) : Bool × List Char :=
      match cs with
      | '-' :: r => (true, r)
      | '+' :: r => (false, r)
      | r => (false, r)
    if body = "Infinity".toList then .inf neg
    else
      match decParse body with
      | some q => .fin (if neg then -q else q)
      | none => .nan

/-- JavaScript `Math.round`: round half toward positive infinity.
(`Rat.floor` is the floor; it is used instead of `⌊·⌋` to keep the
definition kernel-computable.) -/
def jsRound (q : ℚ) : ℤ := (q + 1 / 2).floor

/-- `Math.round(x * 10) / 10`. -/
def round1 (q : ℚ) : ℚ := (jsRound (q * 10) : ℚ) / 10

/-- `Math.round(x * 100) / 100`. -/
def round2 (q : ℚ) : ℚ := (jsRound (q * 100) : ℚ) / 100

/-- Truncation toward zero (ECMAScript `ToIntegerOrInfinity` on a finite
value). -/
def ratTrunc (q : ℚ) : ℤ := if 0 ≤ q then q.floor else q.ceil

/-- `new Date(ms)` for a finite numeric argument: the time value is clipped
at `±8.64e15` (`NaN`, i.e. `none`, beyond that) and truncated to integral
milliseconds (ECMAScript `TimeClip`). -/
def jsDateFromMs (ms : ℚ) : Option ℤ :=
  if |ms| ≤ 8640000000000000 then some (ratTrunc ms) else none

/-- `trimmed.replace(/\//g, "-")`. -/
def slashToDash (s : String) : String :=
  String.mk (s.toList.map fun c => if c = '/' then '-' else c)

/-- `parseTimestamp` from `src/timeRange.ts`, returning the parsed time
value in milliseconds (`Date.prototype.getTime`), `none` for `null`.
`g` models the generic `new Date(string)` parse used by the two fallback
branches. -/
def parseTimestamp (g : String → Option ℤ) (ts : String) : Option ℤ :=
  -- `if (!ts || typeof ts !== "string") return null;`
  if ts = "" then none
  else
    let trimmed := jsTrim ts
    if trimmed = "" then none
    else
      -- fallback: `new Date(trimmed)`, then `new Date(trimmed.replace(/\//g, "-"))`
      let tryDate : Option ℤ :=
        match g trimmed with
        | some t => some t
        | none => g (slashToDash trimmed)
      match jsStrToNum trimmed with
      | .fin num =>
        if 1000000000 ≤ num ∧ num < 1000000000000000 then
          let ms := if num < 1000000000000 then num * 1000 else num
          jsDateFromMs ms
        else tryDate
      | _ => tryDate

/-- `LogRow` from `src/sheetApi.ts`: one decoded measurement row.  Numeric
fields are `number | null`, modelled as `Option ℚ`. -/
structure LogRow where
  timestamp : String
  bp : Option ℚ
  sq : Option ℚ
  dl : Option ℚ
  bodyWeight : Option ℚ
deriving DecidableEq, Repr

/-- `toNum` from `src/ChartCard.tsx` on a `number | null` argument: `null`
stays `null`, a number passes the `Number.isFinite` check (always true in
the `ℚ` model; the empty-string case of the untyped original cannot arise
for a `number | null` input). -/
def toNum (v : Option ℚ) : Option ℚ :=
  match v with
  | none => none
  | some q => some q

/-- The JavaScript nullish-coalescing operator `a ?? b` on optionals. -/
def jsCoalesce (a b : Option ℚ) : Option ℚ :=
  match a with
  | some x => some x
  | none => b

/-- Sort key of a row in `sortAndFillBpSqDl`:
`parseTimestamp(row.timestamp)?.getTime() ?? Infinity`. -/
def tKey (g : String → Option ℤ) (row : LogRow) : WithTop ℤ :=
  match parseTimestamp g row.timestamp with
  | none => ⊤
  | some t => (t : WithTop ℤ)

/-- Comparator relation of the ascending sort in `sortAndFillBpSqDl`
(`(a, b) => ta - tb` with missing keys as `Infinity`). -/
def rowLe (g : String → Option ℤ) (a b : LogRow) : Prop :=
  tKey g a ≤ tKey g b

instance (g : String → Option ℤ) : DecidableRel (rowLe g) :=
  fun a b => inferInstanceAs (Decidable (tKey g a ≤ tKey g b))

instance (g : String → Option ℤ) : IsTotal LogRow (rowLe g) :=
  ⟨fun a b => le_total (tKey g a) (tKey g b)⟩

instance (g : String → Option ℤ) : IsTrans LogRow (rowLe g) :=
  ⟨fun _ _ _ h h2 => le_trans h h2⟩

/-- The `[...rows].sort(...)` step of `sortAndFillBpSqDl`: stable ascending
sort by parsed timestamp, unparseable timestamps (key `Infinity`) at the
end. -/
def sortedRows (g : String → Option ℤ) (rows : List LogRow) : List LogRow :=
  rows.insertionSort (rowLe g)

/-- The forward-fill pass of `sortAndFillBpSqDl`: the three mutable
last-known-good locals `lastBp`, `lastSq`, `lastDl` become explicit
accumulators. -/
def fillRows (lastBp lastSq lastDl : Option ℚ) : List LogRow → List LogRow
  | [] => []
  | row :: rest =>
    let bp := toNum row.bp
    let sq := toNum row.sq
    let dl := toNum row.dl
    -- `if (bp != null) lastBp = bp;` etc.
    let lastBp' := jsCoalesce bp lastBp
    let lastSq' := jsCoalesce sq lastSq
    let lastDl' := jsCoalesce dl lastDl
    -- `{ ...row, bp: bp ?? lastBp, ... }` (with the updated locals)
    { row with
        bp := jsCoalesce bp lastBp'
        sq := jsCoalesce sq lastSq'
        dl := jsCoalesce dl lastDl' } :: fillRows lastBp' lastSq' lastDl' rest

/-- `sortAndFillBpSqDl` from `src/ChartCard.tsx`. -/
def sortAndFillBpSqDl (g : String → Option ℤ) (rows : List LogRow) : List LogRow :=
  fillRows none none none (sortedRows g rows)

/-- The chart data keys of `ChartCard` (`NumericDataKey`). -/
inductive DataKey where
  | total | bp | sq | dl | bodyWeight
deriving DecidableEq, Repr

/-- `RATIO_KEYS` from `src/ChartCard.tsx`. -/
def ratioKeys : List DataKey := [.total, .bp, .sq, .dl]

/-- The `useRatio` guard of `ChartCard`:
`weightRatio && RATIO_KEYS.includes(dataKey) && dataKey !== "bodyWeight"`. -/
def useRatioFor (weightRatio : Bool) (k : DataKey) : Bool :=
  weightRatio && ratioKeys.contains k && !(k == DataKey.bodyWeight)

/-- One element of `chartData` in `ChartCard`.  The optional
`<dataKey>Ratio` property is modelled by `ratio : Option (Option ℚ)`:
`none` when the property is absent, `some none` when it is present with
value `null`, `some (some q)` when it holds the number `q`. -/
structure SeriesPoint where
  timestamp : String
  bp : Option ℚ
  sq : Option ℚ
  dl : Option ℚ
  total : Option ℚ
  bodyWeight : Option ℚ
  ratio : Option (Option ℚ)
deriving DecidableEq, Repr

/-- Property lookup `base[dataKey]` on a series point. -/
def SeriesPoint.fieldVal (p : SeriesPoint) : DataKey → Option ℚ
  | .total => p.total
  | .bp => p.bp
  | .sq => p.sq
  | .dl => p.dl
  | .bodyWeight => p.bodyWeight

/-- The ratio-free part of one `chartData` element: re-checked filled lifts
(`row.bp != null && Number.isFinite(row.bp) ? row.bp : null`, finiteness
being automatic in the ℚ model), derived `total`, and the raw (un-filled)
body weight. -/
def basePoint (row : LogRow) : SeriesPoint :=
  { timestamp := row.timestamp
    bp := row.bp
    sq := row.sq
    dl := row.dl
    total :=
      match row.bp, row.sq, row.dl with
      | some b, some s, some d => some (round1 (b + s + d))
      | _, _, _ => none
    bodyWeight := toNum row.bodyWeight
    ratio := none }

/-- The body of `filledRows.map(...)` in `ChartCard`: the base point, plus
the `<dataKey>Ratio` property when requested
(`if (useRatio && bodyWeight != null && bodyWeight > 0) { ... }`). -/
def mkPoint (useRatio : Bool) (key : DataKey) (row : LogRow) : SeriesPoint :=
  let base := basePoint row
  match base.bodyWeight with
  | some bw =>
    if useRatio ∧ 0 < bw then
      match base.fieldVal key with
      | some raw => { base with ratio := some (some (round2 (raw / bw))) }
      | none => { base with ratio := some none }
    else base
  | none => base

/-- The `chartData` computation of `ChartCard` for a given data key and
ratio-mode flag. -/
def chartData (g : String → Option ℤ) (key : DataKey) (weightRatio : Bool)
    (rows : List LogRow) : List SeriesPoint :=
  (sortAndFillBpSqDl g rows).map (mkPoint (useRatioFor weightRatio key) key)

/-- `Math.max(...nums)` guarded by `nums.length` as in `bestStats`. -/
def listMax : List ℚ → Option ℚ
  | [] => none
  | x :: xs => some (xs.foldl max x)

/-- The four headline statistics (`bestStats` / `bestStatsRatios` result
shape). -/
structure BestStats where
  maxBP : Option ℚ
  maxSQ : Option ℚ
  maxDL : Option ℚ
  total : Option ℚ
deriving DecidableEq, Repr

/-- `bestStats` from `src/App.tsx`: per-lift all-time maxima and the
total-of-maxima. -/
def bestStats (rows : List LogRow) : BestStats :=
  let maxBP := listMax (rows.filterMap LogRow.bp)
  let maxSQ := listMax (rows.filterMap LogRow.sq)
  let maxDL := listMax (rows.filterMap LogRow.dl)
  let total : Option ℚ :=
    match maxBP, maxSQ, maxDL with
    | some b, some s, some d => some (round1 (b + s + d))
    | _, _, _ => none
  { maxBP := maxBP, maxSQ := maxSQ, maxDL := maxDL, total := total }

/-- The `withDate` preprocessing shared by `getLatestRow` and
`latestBodyWeight`: pair every row with its parsed timestamp, dropping rows
whose timestamp does not parse. -/
def withDate (g : String → Option ℤ) (rows : List LogRow) : List (LogRow × ℤ) :=
  rows.filterMap fun r => (parseTimestamp g r.timestamp).map fun t => (r, t)

/-- Ascending comparator of `getLatestRow` (`(a, b) => a.date - b.date`). -/
def pairLe (a b : LogRow × ℤ) : Prop := a.2 ≤ b.2

instance : DecidableRel pairLe := fun a b => inferInstanceAs (Decidable (a.2 ≤ b.2))

instance : IsTotal (LogRow × ℤ) pairLe := ⟨fun a b => le_total a.2 b.2⟩

instance : IsTrans (LogRow × ℤ) pairLe := ⟨fun _ _ _ h h2 => le_trans h h2⟩

/-- Descending comparator of `latestBodyWeight` (`(a, b) => b.date - a.date`). -/
def pairGe (a b : LogRow × ℤ) : Prop := b.2 ≤ a.2

instance : DecidableRel pairGe := fun a b => inferInstanceAs (Decidable (b.2 ≤ a.2))

instance : IsTotal (LogRow × ℤ) pairGe := ⟨fun a b => le_total b.2 a.2⟩

instance : IsTrans (LogRow × ℤ) pairGe := ⟨fun _ _ _ h h2 => le_trans h2 h⟩

/-- `getLatestRow` from `src/App.tsx`: sort the parseable rows ascending by
time and take the last one. -/
def getLatestRow (g : String → Option ℤ) (rows : List LogRow) : Option LogRow :=
  let sorted := (withDate g rows).insertionSort pairLe
  sorted.getLast?.map Prod.fst

/-- The loop body of `latestBodyWeight`:
`if (bw != null && Number.isFinite(bw) && bw > 0) return bw;`. -/
def bwPick (rt : LogRow × ℤ) : Option ℚ :=
  match rt.1.bodyWeight with
  | some bw => if 0 < bw then some bw else none
  | none => none

/-- `latestBodyWeight` from `src/App.tsx`: sort the parseable rows
descending by time and return the first finite, strictly positive body
weight. -/
def latestBodyWeight (g : String → Option ℤ) (rows : List LogRow) : Option ℚ :=
  let sorted := (withDate g rows).insertionSort pairGe
  sorted.findSome? bwPick

/-- `bestStatsRatios` from `src/App.tsx`. -/
def bestStatsRatios (g : String → Option ℤ) (rows : List LogRow) : BestStats :=
  match latestBodyWeight g rows with
  | none => { maxBP := none, maxSQ := none, maxDL := none, total := none }
  | some w =>
    if w ≤ 0 then { maxBP := none, maxSQ := none, maxDL := none, total := none }
    else
      let b := bestStats rows
      { maxBP := b.maxBP.map fun m => round2 (m / w)
        maxSQ := b.maxSQ.map fun m => round2 (m / w)
        maxDL := b.maxDL.map fun m => round2 (m / w)
        total := b.total.map fun m => round2 (m / w) }

/-- A raw gviz cell value (`v?: string | number`). -/
inductive CellVal where
  | str : String → CellVal
  | num : ℚ → CellVal
deriving DecidableEq, Repr

/-- `GvizCell` from `src/sheetApi.ts`: raw value `v` and formatted-string
fallback `f`, each optional. -/
structure GvizCell where
  v : Option CellVal
  f : Option String
deriving DecidableEq, Repr

/-- The `Number(·)` coercion on a cell value. -/
def cellValToNum : CellVal → JSNum
  | .num q => .fin q
  | .str s => jsStrToNum s

/-- Simplified model of the JavaScript `String(·)` conversion of a number:
exact for integral values (the only numeric cell payloads exercised here);
non-integral rationals are rendered by the Lean `Rat` printer, which is a
model restriction, not ECMAScript-faithful. -/
def jsNumToString (q : ℚ) : String :=
  if q.den = 1 then toString q.num else toString q

/-- `String(·)` on a cell value. -/
def cellValToString : CellVal → String
  | .str s => s
  | .num q => jsNumToString q

/-- Civil date (year, month, day) of a day count relative to 1970-01-01,
proleptic Gregorian calendar (the algorithm behind `Date` UTC accessors). -/
def civilFromDays (z0 : ℤ) : ℤ × ℕ × ℕ :=
  let z := z0 + 719468
  let era := z.fdiv 146097
  let doe := (z - era * 146097).toNat
  let yoe := (doe - doe / 1460 + doe / 36524 - doe / 146096) / 365
  let y := (yoe : ℤ) + era * 400
  let doy := doe - (365 * yoe + yoe / 4 - yoe / 100)
  let mp := (5 * doy + 2) / 153
  let d := doy - (153 * mp + 2) / 5 + 1
  let m := if mp < 10 then mp + 3 else mp - 9
  (if m ≤ 2 then y + 1 else y, m, d)

/-- Zero-pad a natural number to two digits. -/
def pad2 (n : ℕ) : String :=
  if n < 10 then "0" ++ toString n else toString n

/-- Zero-pad a natural number to three digits. -/
def pad3 (n : ℕ) : String :=
  if n < 100 then (if n < 10 then "00" else "0") ++ toString n else toString n

/-- Year component of `toISOString`: four digits for 0..9999, otherwise the
expanded six-digit form with an explicit sign. -/
def isoYear (y : ℤ) : String :=
  if 0 ≤ y ∧ y ≤ 9999 then
    let s := toString y.toNat
    String.mk (List.replicate (4 - s.length) '0') ++ s
  else
    let sign := if y < 0 then "-" else "+"
    let s := toString y.natAbs
    sign ++ String.mk (List.replicate (6 - s.length) '0') ++ s

/-- Model of `Date.prototype.toISOString` on an integral time value (in
milliseconds since the epoch): `YYYY-MM-DDTHH:mm:ss.sssZ` in UTC. -/
def jsToISOString (t : ℤ) : String :=
  let days := t.fdiv 86400000
  let msod := (t.fmod 86400000).toNat
  let ymd := civilFromDays days
  let hh := msod / 3600000
  let mm := msod % 3600000 / 60000
  let ss := msod % 60000 / 1000
  let ms := msod % 1000
  isoYear ymd.1 ++ "-" ++ pad2 ymd.2.1 ++ "-" ++ pad2 ymd.2.2 ++ "T" ++
    pad2 hh ++ ":" ++ pad2 mm ++ ":" ++ pad2 ss ++ "." ++ pad3 ms ++ "Z"

/-- `getCellNumber` from `src/sheetApi.ts`. -/
def getCellNumber (c : Option GvizCell) : Option ℚ :=
  match c with
  | none => none
  | some cell =>
    -- `if (c?.v == null || c.v === "") return null;`
    match cell.v with
    | none => none
    | some v =>
      if v = .str "" then none
      else
        match cellValToNum v with
        | .fin q => some q
        | _ => none

/-- The fallback `String(c.f ?? c.v)` of `getCellTimestamp` (note the
preference order flips from `v ?? f` to `f ?? v` here). -/
def cellFallbackString (cell : GvizCell) : String :=
  match cell.f with
  | some f => f
  | none =>
    match cell.v with
    | some v => cellValToString v
    | none => "undefined"

/-- `const raw = c.v ?? c.f;` in `getCellTimestamp`. -/
def rawOf (cell : GvizCell) : Option CellVal :=
  match cell.v with
  | some v => some v
  | none => cell.f.map .str

/-- `getCellTimestamp` from `src/sheetApi.ts`.  The result is `Option String`
only to make the possible `toISOString` RangeError on an invalid date an
explicit `none`; the theorems show it never occurs. -/
def getCellTimestamp (c : Option GvizCell) : Option String :=
  match c with
  | none => some ""
  | some cell =>
    match rawOf cell with
    | none => some ""
    | some rv =>
      if rv = .str "" then some ""
      else
        match cellValToNum rv with
        | .fin num =>
          if 1000000000 ≤ num ∧ num < 1000000000000000 then
            let ms := if num < 1000000000000 then num * 1000 else num
            (jsDateFromMs ms).map jsToISOString
          else some (cellFallbackString cell)
        | _ => some (cellFallbackString cell)

/-- A generic `new Date(string)` parse that rejects every string: the
behaviour of the engines on the concrete non-date strings used below
(for example `new Date("-2000000000")` is an Invalid Date). -/
def noDate : String → Option ℤ := fun _ => none

/-- A generic `new Date(string)` parse fixed on the three ISO day strings of
the specification scenario, returning their actual UTC epoch values
(mandatory ECMAScript behaviour for these ISO-8601 date strings). -/
def gIso : String → Option ℤ := fun s =>
  if s = "2024-01-01" then some 1704067200000
  else if s = "2024-02-01" then some 1706745600000
  else if s = "2024-03-01" then some 1709251200000
  else none

/-- The three rows of the specification scenario for the Series Builder. -/
def c1Rows : List LogRow :=
  [⟨"2024-01-01", some 80, none, none, none⟩,
   ⟨"2024-02-01", none, some 100, none, none⟩,
   ⟨"2024-03-01", some 85, none, some 120, none⟩]

/-- The second scenario row after forward-fill. -/
def c1FilledRow1 : LogRow := ⟨"2024-02-01", some 80, some 100, none, none⟩

/-- The second scenario row after sorting, before forward-fill. -/
def c1SortedRow1 : LogRow := ⟨"2024-02-01", none, some 100, none, none⟩

/-- A concrete row with all three lifts present. -/
def c3Row : LogRow := ⟨"x", some 1, some 2, some 3, none⟩

/-- The two rows of the specification scenario for the Summary maxima. -/
def c4Rows : List LogRow :=
  [⟨"", some 100, some 0, some 0, none⟩,
   ⟨"", some 0, some 150, some 200, none⟩]

/-- A row with a positive body weight but no lift value at all. -/
def c5Rows : List LogRow := [⟨"", none, none, none, some 70⟩]

/-- The series point produced from `c3Row` (total 1 + 2 + 3 = 6). -/
def c3Point : SeriesPoint := ⟨"x", some 1, some 2, some 3, some 6, none, none⟩

/-- A row with a bench press and a positive body weight. -/
def c5wRow : LogRow := ⟨"", some 100, none, none, some 50⟩

/-- A row list with a bench press and a positive body weight. -/
def c5wRows : List LogRow := [c5wRow]

/-- The ratio-mode bench-press series point of `c5wRows` (100 / 50 = 2). -/
def c5wPoint : SeriesPoint := ⟨"", some 100, none, none, none, some 50, some (some 2)⟩

/-- Two parseable rows carrying body weights. -/
def c6Rows : List LogRow :=
  [⟨"2024-01-01", none, none, none, some 60⟩,
   ⟨"2024-02-01", none, none, none, some 62⟩]

/-- One parseable row and two rows with unparseable timestamps. -/
def c7Rows : List LogRow :=
  [⟨"", some 1, none, none, none⟩,
   ⟨"2024-01-01", some 2, none, none, none⟩,
   ⟨"notadate", some 3, none, none, none⟩]

/-! ## Helper lemmas -/

theorem toNum_eq (v : Option ℚ) : toNum v = v := by cases v <;> rfl

@[simp]
theorem jsCoalesce_some (x : ℚ) (b : Option ℚ) : jsCoalesce (some x) b = some x := rfl

@[simp]
theorem jsCoalesce_none (b : Option ℚ) : jsCoalesce none b = b := rfl

@[simp]
theorem jsCoalesce_none_right (a : Option ℚ) : jsCoalesce a none = a := by
  cases a <;> rfl

theorem jsCoalesce_self (a b : Option ℚ) :
    jsCoalesce a (jsCoalesce a b) = jsCoalesce a b := by
  cases a <;> rfl

theorem jsCoalesce_absorb (a b : Option ℚ) :
    jsCoalesce (jsCoalesce a b) b = jsCoalesce a b := by
  cases a <;> cases b <;> rfl

theorem jsCoalesce_idem (a : Option ℚ) : jsCoalesce a a = a := by
  cases a <;> rfl

theorem jsCoalesce_assoc (a b c : Option ℚ) :
    jsCoalesce (jsCoalesce a b) c = jsCoalesce a (jsCoalesce b c) := by
  cases a <;> rfl

/-- The most recent present value of lift field `f` in the row list `l`
(absent when no row of `l` carries one). -/
def lastLift (f : LogRow → Option ℚ) (l : List LogRow) : Option ℚ :=
  (l.filterMap f).getLast?

theorem getLast?_cons_eq {α : Type} (v : α) (xs : List α) :
    (v :: xs).getLast? = some (xs.getLast?.getD v) := by
  cases xs with
  | nil => rfl
  | cons y ys =>
    rw [List.getLast?_cons_cons]
    cases h : (y :: ys).getLast? with
    | none => exact absurd (List.getLast?_eq_none_iff.mp h) (by simp)
    | some w => rfl

theorem lastLift_cons (f : LogRow → Option ℚ) (row : LogRow) (l : List LogRow) :
    lastLift f (row :: l) = jsCoalesce (lastLift f l) (f row) := by
  unfold lastLift
  rw [List.filterMap_cons]
  cases hf : f row with
  | none => simp
  | some v =>
    rw [getLast?_cons_eq]
    cases h : (l.filterMap f).getLast? <;> rfl

theorem fillRows_getElem? (l : List LogRow) (lb ls ld : Option ℚ) (i : ℕ) :
    (fillRows lb ls ld l)[i]? = l[i]?.map fun r =>
      { r with
          bp := jsCoalesce r.bp (jsCoalesce (lastLift LogRow.bp (l.take i)) lb)
          sq := jsCoalesce r.sq (jsCoalesce (lastLift LogRow.sq (l.take i)) ls)
          dl := jsCoalesce r.dl (jsCoalesce (lastLift LogRow.dl (l.take i)) ld) } := by
  induction l generalizing lb ls ld i with
  | nil => simp [fillRows]
  | cons row rest ih =>
    cases i with
    | zero =>
      simp [fillRows, lastLift, toNum_eq, jsCoalesce_self]
    | succ n =>
      have hacc : ∀ (f : LogRow → Option ℚ) (acc : Option ℚ),
          jsCoalesce (lastLift f (rest.take n)) (jsCoalesce (f row) acc)
            = jsCoalesce (lastLift f (row :: rest.take n)) acc := by
        intro f acc
        rw [lastLift_cons, jsCoalesce_assoc]
      simp only [fillRows, toNum_eq, List.getElem?_cons_succ, List.take_succ_cons]
      rw [ih, hacc LogRow.bp lb, hacc LogRow.sq ls, hacc LogRow.dl ld]

theorem fillRows_length (lb ls ld : Option ℚ) (l : List LogRow) :
    (fillRows lb ls ld l).length = l.length := by
  induction l generalizing lb ls ld with
  | nil => rfl
  | cons row rest ih => simp [fillRows, ih]

/-- Pointwise description of the Series Builder output: entry `i` is the
corresponding sorted row with each lift replaced by the row value when
present, else the most recent earlier value of the same lift. -/
theorem sortAndFill_getElem? (g : String → Option ℤ) (rows : List LogRow) (i : ℕ) :
    (sortAndFillBpSqDl g rows)[i]? = ((sortedRows g rows)[i]?).map fun r =>
      { r with
          bp := jsCoalesce r.bp (lastLift LogRow.bp ((sortedRows g rows).take i))
          sq := jsCoalesce r.sq (lastLift LogRow.sq ((sortedRows g rows).take i))
          dl := jsCoalesce r.dl (lastLift LogRow.dl ((sortedRows g rows).take i)) } := by
  rw [sortAndFillBpSqDl, fillRows_getElem?]
  simp [jsCoalesce_none_right]

/-- The sort key as a function of the timestamp string alone. -/
def tsKey (g : String → Option ℤ) (ts : String) : WithTop ℤ :=
  match parseTimestamp g ts with
  | none => ⊤
  | some t => (t : WithTop ℤ)

theorem tKey_eq_tsKey (g : String → Option ℤ) (row : LogRow) :
    tKey g row = tsKey g row.timestamp := rfl

theorem sorted_rowLe_iff (g : String → Option ℤ) (l : List LogRow) :
    List.Sorted (rowLe g) l ↔ List.Pairwise (· ≤ ·) (l.map (tKey g)) := by
  rw [List.Sorted, List.pairwise_map]
  exact Iff.rfl

theorem fillRows_map_timestamp (lb ls ld : Option ℚ) (l : List LogRow) :
    (fillRows lb ls ld l).map LogRow.timestamp = l.map LogRow.timestamp := by
  induction l generalizing lb ls ld with
  | nil => rfl
  | cons row rest ih => simp [fillRows, ih]

theorem fillRows_map_tKey (g : String → Option ℤ) (lb ls ld : Option ℚ)
    (l : List LogRow) : (fillRows lb ls ld l).map (tKey g) = l.map (tKey g) := by
  have h1 : (fillRows lb ls ld l).map (tKey g)
      = ((fillRows lb ls ld l).map LogRow.timestamp).map (tsKey g) := by
    rw [List.map_map]; rfl
  have h2 : l.map (tKey g) = (l.map LogRow.timestamp).map (tsKey g) := by
    rw [List.map_map]; rfl
  rw [h1, h2, fillRows_map_timestamp]

theorem sorted_fillRows (g : String → Option ℤ) (lb ls ld : Option ℚ)
    (l : List LogRow) (h : List.Sorted (rowLe g) l) :
    List.Sorted (rowLe g) (fillRows lb ls ld l) := by
  rw [sorted_rowLe_iff] at h ⊢
  rw [fillRows_map_tKey]
  exact h

theorem fillRows_idem (l : List LogRow) : ∀ lb ls ld : Option ℚ,
    fillRows lb ls ld (fillRows lb ls ld l) = fillRows lb ls ld l := by
  induction l with
  | nil => intro lb ls ld; rfl
  | cons row rest ih =>
    intro lb ls ld
    simp only [fillRows, toNum_eq, jsCoalesce_self, jsCoalesce_absorb, jsCoalesce_idem, ih]

theorem insertionSort_eq_nil_iff {α : Type} {r : α → α → Prop} [DecidableRel r]
    {l : List α} : l.insertionSort r = [] ↔ l = [] := by
  constructor
  · intro h
    have hl := List.length_insertionSort r l
    rw [h] at hl
    exact List.length_eq_zero.mp hl.symm
  · rintro rfl
    rfl

theorem foldl_max_le : ∀ (xs : List ℚ) (x v : ℚ), v ∈ x :: xs → v ≤ xs.foldl max x := by
  intro xs
  induction xs with
  | nil =>
    intro x v hv
    rw [List.mem_singleton] at hv
    exact le_of_eq hv
  | cons y ys ih =>
    intro x v hv
    rw [List.foldl_cons]
    rcases List.mem_cons.mp hv with rfl | hv2
    · exact le_trans (le_max_left v y) (ih (max v y) _ (List.mem_cons_self _ _))
    · rcases List.mem_cons.mp hv2 with rfl | hv3
      · exact le_trans (le_max_right x v) (ih (max x v) _ (List.mem_cons_self _ _))
      · exact ih (max x y) v (List.mem_cons_of_mem _ hv3)

theorem foldl_max_mem : ∀ (xs : List ℚ) (x : ℚ), xs.foldl max x ∈ x :: xs := by
  intro xs
  induction xs with
  | nil => intro x; exact List.mem_singleton.mpr rfl
  | cons y ys ih =>
    intro x
    rw [List.foldl_cons]
    rcases List.mem_cons.mp (ih (max x y)) with h | h
    · rcases max_choice x y with h2 | h2 <;> rw [h, h2]
      · exact List.mem_cons_self _ _
      · exact List.mem_cons_of_mem _ (List.mem_cons_self _ _)
    · exact List.mem_cons_of_mem _ (List.mem_cons_of_mem _ h)

theorem listMax_none_iff (l : List ℚ) : listMax l = none ↔ l = [] := by
  cases l <;> simp [listMax]

theorem listMax_spec (l : List ℚ) (m : ℚ) (h : listMax l = some m) :
    m ∈ l ∧ ∀ v ∈ l, v ≤ m := by
  cases l with
  | nil => exact absurd h (by simp [listMax])
  | cons x xs =>
    rw [listMax, Option.some_inj] at h
    subst h
    exact ⟨foldl_max_mem xs x, fun v hv => foldl_max_le xs x v hv⟩

theorem findSome?_sorted_first {α β : Type} {R : α → α → Prop} {f : α → Option β}
    {b : β} : ∀ {l : List α}, List.Pairwise R l → l.findSome? f = some b →
      ∃ a ∈ l, f a = some b ∧ ∀ x ∈ l, (f x).isSome → R a x ∨ a = x := by
  intro l
  induction l with
  | nil => intro _ h; simp [List.findSome?] at h
  | cons hd tl ih =>
    intro hp hf
    rw [List.findSome?_cons] at hf
    cases hfh : f hd with
    | some c =>
      rw [hfh] at hf
      refine ⟨hd, List.mem_cons_self _ _, hf ▸ hfh, ?_⟩
      intro x hx _
      rcases List.mem_cons.mp hx with rfl | hx2
      · exact Or.inr rfl
      · exact Or.inl ((List.pairwise_cons.mp hp).1 x hx2)
    | none =>
      rw [hfh] at hf
      obtain ⟨a, ha, hfa, hmax⟩ := ih (List.pairwise_cons.mp hp).2 hf
      refine ⟨a, List.mem_cons_of_mem _ ha, hfa, ?_⟩
      intro x hx hs
      rcases List.mem_cons.mp hx with rfl | hx2
      · rw [hfh] at hs
        exact absurd hs (by simp)
      · exact hmax x hx2 hs

theorem getLast?_pairwise {α : Type} {R : α → α → Prop} {l : List α} {a : α}
    (hp : List.Pairwise R l) (h : l.getLast? = some a) :
    a ∈ l ∧ ∀ x ∈ l, R x a ∨ x = a := by
  rw [List.getLast?_eq_getElem?, List.getElem?_eq_some] at h
  obtain ⟨hlt, hget⟩ := h
  constructor
  · exact hget ▸ List.getElem_mem hlt
  · intro x hx
    obtain ⟨k, hk, hxk⟩ := List.mem_iff_getElem.mp hx
    rcases lt_or_ge k (l.length - 1) with hlt2 | hge
    · left
      have hr := List.pairwise_iff_getElem.mp hp k (l.length - 1) hk hlt hlt2
      rw [hxk, hget] at hr
      exact hr
    · right
      have hk2 : k = l.length - 1 := by omega
      subst hk2
      exact hxk.symm.trans hget

theorem epochMs_valid {q : ℚ} (h1 : 1000000000 ≤ q) (h2 : q < 1000000000000000) :
    jsDateFromMs (if q < 1000000000000 then q * 1000 else q)
      = some (ratTrunc (if q < 1000000000000 then q * 1000 else q)) := by
  rw [jsDateFromMs, if_pos]
  rw [abs_le]
  split_ifs with hq
  · constructor <;> nlinarith
  · constructor <;> nlinarith

theorem jsStrToNum_empty : jsStrToNum "" = .fin 0 := by decide

theorem parseTimestamp_epoch_eq (g : String → Option ℤ) (s : String) (q : ℚ)
    (hnum : jsStrToNum (jsTrim s) = .fin q) (h1 : 1000000000 ≤ q)
    (h2 : q < 1000000000000000) :
    parseTimestamp g s = some (ratTrunc (if q < 1000000000000 then q * 1000 else q)) := by
  have hq0 : q ≠ 0 := by
    intro h
    rw [h] at h1
    norm_num at h1
  have hs : s ≠ "" := by
    rintro rfl
    rw [show jsTrim "" = "" from rfl, jsStrToNum_empty] at hnum
    exact hq0 (JSNum.fin.inj hnum).symm
  have ht : jsTrim s ≠ "" := by
    intro h
    rw [h, jsStrToNum_empty] at hnum
    exact hq0 (JSNum.fin.inj hnum).symm
  rw [parseTimestamp, if_neg hs]
  simp only [if_neg ht, hnum]
  rw [if_pos ⟨h1, h2⟩, epochMs_valid h1 h2]

theorem getCellTimestamp_isSome (c : Option GvizCell) :
    (getCellTimestamp c).isSome := by
  cases c with
  | none => rfl
  | some cell =>
    simp only [getCellTimestamp]
    cases hraw : rawOf cell with
    | none => rfl
    | some rv =>
      dsimp only
      by_cases he : rv = .str ""
      · rw [if_pos he]; rfl
      · rw [if_neg he]
        cases hn : cellValToNum rv with
        | fin q =>
          dsimp only
          by_cases hq : 1000000000 ≤ q ∧ q < 1000000000000000
          · rw [if_pos hq]
            simp only [epochMs_valid hq.1 hq.2]
            rfl
          · rw [if_neg hq]; rfl
        | nan => rfl
        | inf b => rfl

theorem mkPoint_fieldVal (u : Bool) (key k : DataKey) (r : LogRow) :
    (mkPoint u key r).fieldVal k = (basePoint r).fieldVal k := by
  rw [mkPoint]
  cases hb : (basePoint r).bodyWeight with
  | none => rfl
  | some bw =>
    dsimp only
    by_cases h : u = true ∧ 0 < bw
    · rw [if_pos h]
      cases hf : (basePoint r).fieldVal key <;> cases k <;>
        simp [SeriesPoint.fieldVal, hb]
    · rw [if_neg h]

theorem mkPoint_timestamp (u : Bool) (key : DataKey) (r : LogRow) :
    (mkPoint u key r).timestamp = r.timestamp := by
  rw [mkPoint]
  cases (basePoint r).bodyWeight with
  | none => rfl
  | some bw =>
    dsimp only
    by_cases h : u = true ∧ 0 < bw
    · rw [if_pos h]
      cases (basePoint r).fieldVal key <;> rfl
    · rw [if_neg h]
      rfl

theorem mkPoint_bodyWeight (u : Bool) (key : DataKey) (r : LogRow) :
    (mkPoint u key r).bodyWeight = r.bodyWeight := by
  have h := mkPoint_fieldVal u key .bodyWeight r
  rw [SeriesPoint.fieldVal] at h
  rw [h]
  rw [basePoint, SeriesPoint.fieldVal, toNum_eq]

theorem mkPoint_total (u : Bool) (key : DataKey) (r : LogRow) :
    (mkPoint u key r).total
      = match r.bp, r.sq, r.dl with
        | some b, some s, some d => some (round1 (b + s + d))
        | _, _, _ => none := by
  have h := mkPoint_fieldVal u key .total r
  rw [SeriesPoint.fieldVal] at h
  rw [h]
  rfl

theorem mkPoint_bp (u : Bool) (key : DataKey) (r : LogRow) :
    (mkPoint u key r).bp = r.bp := by
  have h := mkPoint_fieldVal u key .bp r
  rw [SeriesPoint.fieldVal] at h
  rw [h]
  rfl

theorem mkPoint_sq (u : Bool) (key : DataKey) (r : LogRow) :
    (mkPoint u key r).sq = r.sq := by
  have h := mkPoint_fieldVal u key .sq r
  rw [SeriesPoint.fieldVal] at h
  rw [h]
  rfl

theorem mkPoint_dl (u : Bool) (key : DataKey) (r : LogRow) :
    (mkPoint u key r).dl = r.dl := by
  have h := mkPoint_fieldVal u key .dl r
  rw [SeriesPoint.fieldVal] at h
  rw [h]
  rfl

theorem mkPoint_ratio (u : Bool) (key : DataKey) (r : LogRow) :
    (mkPoint u key r).ratio
      = match r.bodyWeight with
        | some bw =>
          if u ∧ 0 < bw then
            some (((basePoint r).fieldVal key).map fun raw => round2 (raw / bw))
          else none
        | none => none := by
  rw [mkPoint]
  have hbw : (basePoint r).bodyWeight = r.bodyWeight := by
    rw [basePoint, toNum_eq]
  rw [hbw]
  cases r.bodyWeight with
  | none => rfl
  | some bw =>
    dsimp only
    by_cases h : u = true ∧ 0 < bw
    · rw [if_pos h, if_pos h]
      cases (basePoint r).fieldVal key <;> rfl
    · rw [if_neg h, if_neg h]
      rfl

/-! ## Claim theorems -/

/-- C1 (amended): the Series Builder walks the time-sorted sequence and
emits, for each lift independently, the row value when present, else the
most recent earlier value of that same lift (absent when none exists); on
the scenario rows the bp column is [80, 80, 85], sq is [null, 100, 100],
dl is [null, null, 120] and total is [null, null, 305] (the claimed 325 is
an arithmetic slip: 85 + 100 + 120 = 305). -/
theorem seriesBuilder_forwardFill_spec :
    (∀ (g : String → Option ℤ) (rows : List LogRow) (i : ℕ) (p s : LogRow),
        (sortAndFillBpSqDl g rows)[i]? = some p →
        (sortedRows g rows)[i]? = some s →
        p.timestamp = s.timestamp ∧ p.bodyWeight = s.bodyWeight ∧
        p.bp = jsCoalesce s.bp (lastLift LogRow.bp ((sortedRows g rows).take i)) ∧
        p.sq = jsCoalesce s.sq (lastLift LogRow.sq ((sortedRows g rows).take i)) ∧
        p.dl = jsCoalesce s.dl (lastLift LogRow.dl ((sortedRows g rows).take i))) ∧
    (chartData gIso .bp false c1Rows).map SeriesPoint.bp = [some 80, some 80, some 85] ∧
    (chartData gIso .sq false c1Rows).map SeriesPoint.sq = [none, some 100, some 100] ∧
    (chartData gIso .dl false c1Rows).map SeriesPoint.dl = [none, none, some 120] ∧
    (chartData gIso .total false c1Rows).map SeriesPoint.total = [none, none, some 305] := by
  refine ⟨?_, by decide, by decide, by decide, by decide⟩
  intro g rows i p s hp hs
  rw [sortAndFill_getElem?, hs, Option.map_some', Option.some_inj] at hp
  subst hp
  exact ⟨rfl, rfl, rfl, rfl, rfl⟩

/-- C1 counterexample: on the scenario rows the emitted total column is
[null, null, 305], not [null, null, 325] as the claim states
(85 + 100 + 120 = 305). -/
theorem seriesBuilder_scenario_total_counterexample :
    (chartData gIso .total false c1Rows).map SeriesPoint.total = [none, none, some 305] ∧
    (chartData gIso .total false c1Rows).map SeriesPoint.total ≠ [none, none, some 325] ∧
    (85 : ℚ) + 100 + 120 = 305 := by
  refine ⟨by decide, by decide, by norm_num⟩

/-- C1 witness: the forward-fill description applied to the second scenario
point (bench press carried from the first row, squat taken from the row
itself). -/
theorem seriesBuilder_forwardFill_spec_witness :
    c1FilledRow1.timestamp = c1SortedRow1.timestamp ∧
    c1FilledRow1.bodyWeight = c1SortedRow1.bodyWeight ∧
    c1FilledRow1.bp = jsCoalesce c1SortedRow1.bp (lastLift LogRow.bp ((sortedRows gIso c1Rows).take 1)) ∧
    c1FilledRow1.sq = jsCoalesce c1SortedRow1.sq (lastLift LogRow.sq ((sortedRows gIso c1Rows).take 1)) ∧
    c1FilledRow1.dl = jsCoalesce c1SortedRow1.dl (lastLift LogRow.dl ((sortedRows gIso c1Rows).take 1)) :=
  seriesBuilder_forwardFill_spec.1 gIso c1Rows 1 c1FilledRow1 c1SortedRow1
    (by decide) (by decide)

/-- C2 (amended): a trimmed input that parses fully as a number whose VALUE
(not magnitude) lies in [1e9, 1e15) is interpreted as a Unix epoch: below
1e12 as seconds, at or above 1e12 as milliseconds. -/
theorem parseTimestamp_epoch_spec (g : String → Option ℤ) (s : String) (q : ℚ)
    (hnum : jsStrToNum (jsTrim s) = .fin q)
    (h1 : 1000000000 ≤ q) (h2 : q < 1000000000000000) :
    (q < 1000000000000 → parseTimestamp g s = some (ratTrunc (q * 1000))) ∧
    (1000000000000 ≤ q → parseTimestamp g s = some (ratTrunc q)) := by
  have h := parseTimestamp_epoch_eq g s q hnum h1 h2
  constructor
  · intro hlt
    rw [h, if_pos hlt]
  · intro hge
    rw [h, if_neg (not_lt.mpr hge)]

/-- C2 counterexample: "-2000000000" parses fully as a number of magnitude
2e9 ∈ [1e9, 1e12), so the claim predicts the epoch interpretation
-2000000000 seconds; but the code requires the VALUE to be at least 1e9, so
the input falls through to the generic date parse, which rejects it
(`new Date("-2000000000")` is an Invalid Date in the engines), and parse
returns null. -/
theorem parseTimestamp_magnitude_counterexample :
    jsStrToNum (jsTrim "-2000000000") = .fin (-2000000000) ∧
    (1000000000 : ℚ) ≤ |(-2000000000 : ℚ)| ∧
    |(-2000000000 : ℚ)| < 1000000000000000 ∧
    parseTimestamp noDate "-2000000000" = none ∧
    parseTimestamp noDate "-2000000000" ≠ some (ratTrunc ((-2000000000 : ℚ) * 1000)) := by
  refine ⟨by decide, by decide, by decide, by decide, by decide⟩

/-- C2 witness: "1700000000" is an epoch in seconds. -/
theorem parseTimestamp_epoch_spec_witness :
    jsStrToNum (jsTrim "1700000000") = JSNum.fin 1700000000 ∧
    parseTimestamp noDate "1700000000" = some 1700000000000 := by
  have h := (parseTimestamp_epoch_spec noDate "1700000000" 1700000000
    (by decide) (by decide) (by decide)).1 (by decide)
  exact ⟨by decide, h.trans (by decide)⟩

/-- C9: the Series Builder sort-and-fill step is idempotent: applying it to
its own output returns that output unchanged. -/
theorem seriesBuilder_idempotent (g : String → Option ℤ) (rows : List LogRow) :
    sortAndFillBpSqDl g (sortAndFillBpSqDl g rows) = sortAndFillBpSqDl g rows := by
  have hs : List.Sorted (rowLe g) (sortedRows g rows) :=
    List.sorted_insertionSort (rowLe g) rows
  have hf : List.Sorted (rowLe g) (fillRows none none none (sortedRows g rows)) :=
    sorted_fillRows g none none none _ hs
  show fillRows none none none
      (sortedRows g (fillRows none none none (sortedRows g rows)))
    = sortAndFillBpSqDl g rows
  rw [show sortedRows g (fillRows none none none (sortedRows g rows))
      = fillRows none none none (sortedRows g rows)
    from List.Sorted.insertionSort_eq hf]
  exact fillRows_idem _ none none none

theorem bestStats_maxBP (rows : List LogRow) :
    (bestStats rows).maxBP = listMax (rows.filterMap LogRow.bp) := rfl

theorem bestStats_maxSQ (rows : List LogRow) :
    (bestStats rows).maxSQ = listMax (rows.filterMap LogRow.sq) := rfl

theorem bestStats_maxDL (rows : List LogRow) :
    (bestStats rows).maxDL = listMax (rows.filterMap LogRow.dl) := rfl

theorem bestStats_total (rows : List LogRow) :
    (bestStats rows).total
      = match (bestStats rows).maxBP, (bestStats rows).maxSQ, (bestStats rows).maxDL with
        | some b, some s, some d => some (round1 (b + s + d))
        | _, _, _ => none := rfl

/-- C3: for every series point, `total` is present iff all three
forward-filled lift values are present, and when present it equals their sum
rounded to one decimal place. -/
theorem chartTotal_invariant (g : String → Option ℤ) (key : DataKey) (wr : Bool)
    (rows : List LogRow) (i : ℕ) (p : SeriesPoint) (r : LogRow)
    (hp : (chartData g key wr rows)[i]? = some p)
    (hr : (sortAndFillBpSqDl g rows)[i]? = some r) :
    (p.total.isSome ↔ r.bp.isSome ∧ r.sq.isSome ∧ r.dl.isSome) ∧
    (∀ b s d, r.bp = some b → r.sq = some s → r.dl = some d →
      p.total = some (round1 (b + s + d))) := by
  rw [chartData, List.getElem?_map, hr, Option.map_some', Option.some_inj] at hp
  subst hp
  rw [mkPoint_total]
  cases r.bp <;> cases r.sq <;> cases r.dl <;> simp

/-- C3 witness: on a single row with bp 1, sq 2, dl 3 the point total is
round1(1 + 2 + 3) = 6. -/
theorem chartTotal_invariant_witness :
    c3Point.total = some (round1 (1 + 2 + 3)) ∧ c3Point.total.isSome := by
  have h := chartTotal_invariant noDate DataKey.total false [c3Row] 0 c3Point c3Row
    (by decide) (by decide)
  exact ⟨h.2 1 2 3 rfl rfl rfl, by decide⟩

/-- C4: the Summary maxima are taken over all rows with a present value for
that lift, the total is the rounded sum of the three per-lift maxima
(defined only when all three are), and on the scenario rows the summary is
maxBP 100, maxSQ 150, maxDL 200, total 450 — not the maximum 350 of any
single row taken alone. -/
theorem bestStats_maxima_spec :
    (∀ rows : List LogRow,
      ((bestStats rows).maxBP = none ↔ rows.filterMap LogRow.bp = []) ∧
      (∀ m, (bestStats rows).maxBP = some m →
        m ∈ rows.filterMap LogRow.bp ∧ ∀ v ∈ rows.filterMap LogRow.bp, v ≤ m) ∧
      ((bestStats rows).maxSQ = none ↔ rows.filterMap LogRow.sq = []) ∧
      (∀ m, (bestStats rows).maxSQ = some m →
        m ∈ rows.filterMap LogRow.sq ∧ ∀ v ∈ rows.filterMap LogRow.sq, v ≤ m) ∧
      ((bestStats rows).maxDL = none ↔ rows.filterMap LogRow.dl = []) ∧
      (∀ m, (bestStats rows).maxDL = some m →
        m ∈ rows.filterMap LogRow.dl ∧ ∀ v ∈ rows.filterMap LogRow.dl, v ≤ m) ∧
      ((bestStats rows).total.isSome ↔
        (bestStats rows).maxBP.isSome ∧ (bestStats rows).maxSQ.isSome ∧
          (bestStats rows).maxDL.isSome) ∧
      (∀ b s d, (bestStats rows).maxBP = some b → (bestStats rows).maxSQ = some s →
        (bestStats rows).maxDL = some d →
        (bestStats rows).total = some (round1 (b + s + d)))) ∧
    bestStats c4Rows
      = { maxBP := some 100, maxSQ := some 150, maxDL := some 200, total := some 450 } ∧
    round1 (100 + 0 + 0) = 100 ∧ round1 (0 + 150 + 200) = 350 ∧ (450 : ℚ) ≠ 350 := by
  refine ⟨?_, by decide, by decide, by decide, by decide⟩
  intro rows
  refine ⟨?_, ?_, ?_, ?_, ?_, ?_, ?_, ?_⟩
  · rw [bestStats_maxBP]; exact listMax_none_iff _
  · intro m hm; exact listMax_spec _ m (bestStats_maxBP rows ▸ hm)
  · rw [bestStats_maxSQ]; exact listMax_none_iff _
  · intro m hm; exact listMax_spec _ m (bestStats_maxSQ rows ▸ hm)
  · rw [bestStats_maxDL]; exact listMax_none_iff _
  · intro m hm; exact listMax_spec _ m (bestStats_maxDL rows ▸ hm)
  · rw [bestStats_total]
    cases (bestStats rows).maxBP <;> cases (bestStats rows).maxSQ <;>
      cases (bestStats rows).maxDL <;> simp
  · intro b s d hb hs hd
    rw [bestStats_total, hb, hs, hd]

/-- C4 witness: the summary of the scenario rows realizes maxBP = 100,
which is attained by a row. -/
theorem bestStats_maxima_spec_witness :
    (bestStats c4Rows).maxBP = some 100 ∧ (100 : ℚ) ∈ c4Rows.filterMap LogRow.bp :=
  ⟨by decide, ((bestStats_maxima_spec.1 c4Rows).2.1 100 (by decide)).1⟩

/-- C5 (amended): in ratio mode, the numeric ratio of a point is present iff
the own (unfilled) body weight of that row is present and positive AND the
forward-filled displayed value is present, in which case it equals
round2(filled value / own body weight); the ratio property itself (possibly
holding null) is attached iff the own body weight is present and positive. -/
theorem ratio_invariant_spec (g : String → Option ℤ) (key : DataKey) (wr : Bool)
    (rows : List LogRow) (i : ℕ) (p : SeriesPoint) (s : LogRow)
    (hu : useRatioFor wr key = true)
    (hp : (chartData g key wr rows)[i]? = some p)
    (hs : (sortedRows g rows)[i]? = some s) :
    ((∃ v, p.ratio = some v) ↔ ∃ bw, s.bodyWeight = some bw ∧ 0 < bw) ∧
    (∀ q, p.ratio = some (some q) ↔
      ∃ bw fv, s.bodyWeight = some bw ∧ 0 < bw ∧ p.fieldVal key = some fv ∧
        q = round2 (fv / bw)) := by
  rw [chartData, List.getElem?_map, sortAndFill_getElem?, hs, Option.map_some',
    Option.map_some', Option.some_inj] at hp
  subst hp
  rw [mkPoint_ratio, mkPoint_fieldVal, hu]
  cases hbw : s.bodyWeight with
  | none =>
    simp [hbw]
  | some bw =>
    by_cases h0 : 0 < bw
    · simp only [hbw, true_and, h0, if_pos, Option.map_eq_some']
      constructor
      · constructor
        · intro _; exact ⟨bw, rfl, h0⟩
        · intro _; exact ⟨_, rfl⟩
      · intro q
        constructor
        · rintro h
          rw [Option.some_inj] at h
          obtain ⟨fv, hfv, hq⟩ := Option.map_eq_some'.mp h
          exact ⟨bw, fv, rfl, h0, hfv, hq.symm⟩
        · rintro ⟨bw2, fv, hbw2, _, hfv, hq⟩
          rw [Option.some_inj] at hbw2
          subst hbw2
          rw [hfv]
          rw [Option.some_inj]
          simp [hq]
    · simp only [hbw, true_and, h0, if_neg, if_false]
      constructor
      · constructor
        · rintro ⟨v, hv⟩; exact absurd hv (by simp)
        · rintro ⟨bw2, hbw2, h02⟩
          rw [Option.some_inj] at hbw2
          subst hbw2
          exact absurd h02 h0
      · intro q
        constructor
        · intro h; exact absurd h (by simp)
        · rintro ⟨bw2, fv, hbw2, h02, _, _⟩
          rw [Option.some_inj] at hbw2
          subst hbw2
          exact absurd h02 h0

/-- C5 counterexample: a single row with body weight 70 (> 0, present) but
no lift value ever recorded.  In bench-press ratio mode the emitted point
carries the ratio property with value null — because the forward-filled
bench press is absent — so no numeric ratio is present even though the
own body weight of the row is present and positive, contradicting the claimed
equivalence (and there is no quotient for the claimed equality to hold). -/
theorem ratio_invariant_counterexample :
    useRatioFor true DataKey.bp = true ∧
    c5Rows.map LogRow.bodyWeight = [some 70] ∧ (0 : ℚ) < 70 ∧
    (chartData noDate DataKey.bp true c5Rows).map SeriesPoint.ratio = [some none] ∧
    ¬ ∃ q : ℚ, (chartData noDate DataKey.bp true c5Rows).map SeriesPoint.ratio
        = [some (some q)] := by
  refine ⟨by decide, by decide, by decide, by decide, ?_⟩
  rintro ⟨q, hq⟩
  rw [show (chartData noDate DataKey.bp true c5Rows).map SeriesPoint.ratio
      = [some none] from by decide] at hq
  simp at hq

/-- C5 witness: with bench press 100 and own body weight 50 the ratio is
round2(100 / 50) = 2. -/
theorem ratio_invariant_spec_witness :
    c5wPoint.ratio = some (some (round2 (100 / 50))) ∧ round2 ((100 : ℚ) / 50) = 2 := by
  have h := ratio_invariant_spec noDate DataKey.bp true c5wRows 0 c5wPoint c5wRow
    (by decide) (by decide) (by decide)
  refine ⟨(h.2 (round2 (100 / 50))).mpr ⟨50, 100, rfl, by decide, by decide, rfl⟩, by decide⟩

theorem withDate_mem (g : String → Option ℤ) (rows : List LogRow) (r : LogRow)
    (t : ℤ) : (r, t) ∈ withDate g rows ↔
      r ∈ rows ∧ parseTimestamp g r.timestamp = some t := by
  rw [withDate, List.mem_filterMap]
  constructor
  · rintro ⟨a, ha, hF⟩
    obtain ⟨t2, ht2, heq⟩ := Option.map_eq_some'.mp hF
    obtain ⟨rfl, rfl⟩ := Prod.mk.injEq .. |>.mp heq
    exact ⟨ha, ht2⟩
  · rintro ⟨hr, hp⟩
    exact ⟨r, hr, by rw [hp]; rfl⟩

theorem bwPick_eq_some (x : LogRow × ℤ) (b : ℚ) :
    bwPick x = some b ↔ x.1.bodyWeight = some b ∧ 0 < b := by
  rw [bwPick]
  cases hx : x.1.bodyWeight with
  | none => simp
  | some bw =>
    dsimp only
    by_cases h0 : 0 < bw
    · rw [if_pos h0]
      constructor
      · rintro h
        rw [Option.some_inj] at h
        subst h
        exact ⟨rfl, h0⟩
      · rintro ⟨h, _⟩
        rw [Option.some_inj] at h
        subst h
        rfl
    · rw [if_neg h0]
      constructor
      · rintro ⟨⟩
      · rintro ⟨h, hb⟩
        rw [Option.some_inj] at h
        subst h
        exact absurd hb h0

theorem bwPick_isSome (x : LogRow × ℤ) (b : ℚ) (hbw : x.1.bodyWeight = some b)
    (h0 : 0 < b) : (bwPick x).isSome := by
  rw [bwPick, hbw]
  dsimp only
  rw [if_pos h0]
  rfl

/-- C6: the latest body weight is the body weight of a parseable row whose
timestamp is maximal among all parseable rows with a positive body weight
(rows with unparseable timestamps never contribute); it is absent exactly
when no parseable row has a positive body weight; and the ratio summary is
each maximum divided by it (rounded to 2 decimals) when it is present —
necessarily positive — and entirely absent otherwise. -/
theorem latestBodyWeight_spec (g : String → Option ℤ) (rows : List LogRow) :
    (∀ b, latestBodyWeight g rows = some b →
      0 < b ∧ ∃ r t, r ∈ rows ∧ parseTimestamp g r.timestamp = some t ∧
        r.bodyWeight = some b ∧
        ∀ r' t' b', r' ∈ rows → parseTimestamp g r'.timestamp = some t' →
          r'.bodyWeight = some b' → 0 < b' → t' ≤ t) ∧
    (latestBodyWeight g rows = none ↔
      ∀ r ∈ rows, ∀ t b, parseTimestamp g r.timestamp = some t →
        r.bodyWeight = some b → ¬ 0 < b) ∧
    (bestStatsRatios g rows
      = match latestBodyWeight g rows with
        | none => { maxBP := none, maxSQ := none, maxDL := none, total := none }
        | some w =>
          { maxBP := (bestStats rows).maxBP.map fun m => round2 (m / w)
            maxSQ := (bestStats rows).maxSQ.map fun m => round2 (m / w)
            maxDL := (bestStats rows).maxDL.map fun m => round2 (m / w)
            total := (bestStats rows).total.map fun m => round2 (m / w) }) := by
  have hpair : List.Pairwise pairGe ((withDate g rows).insertionSort pairGe) :=
    List.sorted_insertionSort pairGe (withDate g rows)
  have hA : ∀ b, latestBodyWeight g rows = some b →
      0 < b ∧ ∃ r t, r ∈ rows ∧ parseTimestamp g r.timestamp = some t ∧
        r.bodyWeight = some b ∧
        ∀ r' t' b', r' ∈ rows → parseTimestamp g r'.timestamp = some t' →
          r'.bodyWeight = some b' → 0 < b' → t' ≤ t := by
    intro b hb
    rw [latestBodyWeight] at hb
    obtain ⟨a, haMem, hfa, hmax⟩ := findSome?_sorted_first hpair hb
    obtain ⟨hbw, hpos⟩ := (bwPick_eq_some a b).mp hfa
    have haW : a ∈ withDate g rows := (List.mem_insertionSort pairGe).mp haMem
    obtain ⟨haRows, haParse⟩ := (withDate_mem g rows a.1 a.2).mp haW
    refine ⟨hpos, a.1, a.2, haRows, haParse, hbw, ?_⟩
    intro r' t' b' hr' hp' hbw' hpos'
    have hxs : (r', t') ∈ (withDate g rows).insertionSort pairGe :=
      (List.mem_insertionSort pairGe).mpr ((withDate_mem g rows r' t').mpr ⟨hr', hp'⟩)
    rcases hmax _ hxs (bwPick_isSome _ b' hbw' hpos') with hge | heq
    · exact hge
    · exact le_of_eq (by rw [heq])
  refine ⟨hA, ?_, ?_⟩
  · rw [latestBodyWeight, List.findSome?_eq_none_iff]
    constructor
    · intro h r hr t b hp hbw hpos
      have hxs : (r, t) ∈ (withDate g rows).insertionSort pairGe :=
        (List.mem_insertionSort pairGe).mpr ((withDate_mem g rows r t).mpr ⟨hr, hp⟩)
      have := h _ hxs
      rw [(bwPick_eq_some (r, t) b).mpr ⟨hbw, hpos⟩] at this
      exact Option.noConfusion this
    · intro h x hx
      have hxW : x ∈ withDate g rows := (List.mem_insertionSort pairGe).mp hx
      obtain ⟨hxRows, hxParse⟩ := (withDate_mem g rows x.1 x.2).mp hxW
      rw [bwPick]
      cases hbw : x.1.bodyWeight with
      | none => rfl
      | some bw =>
        dsimp only
        rw [if_neg (h x.1 hxRows x.2 bw hxParse hbw)]
  · cases hl : latestBodyWeight g rows with
    | none => simp [bestStatsRatios, hl]
    | some w =>
      have hw : 0 < w := (hA w hl).1
      simp only [bestStatsRatios, hl]
      rw [if_neg (not_le.mpr hw)]

/-- C6 witness: of the two parseable rows, the later one (2024-02-01)
supplies the latest body weight 62, which is positive. -/
theorem latestBodyWeight_spec_witness :
    latestBodyWeight gIso c6Rows = some 62 ∧ (0 : ℚ) < 62 :=
  ⟨by decide, ((latestBodyWeight_spec gIso c6Rows).1 62 (by decide)).1⟩

/-- C7: rows whose timestamp fails to parse (the empty string included)
appear after every parseable row in the sorted output of the Series Builder,
while the latest-row computation of the Summary Calculator excludes them entirely: it is a
row of maximal parsed timestamp among the parseable rows, absent when no
row parses. -/
theorem unparseable_timestamp_policy (g : String → Option ℤ) (rows : List LogRow) :
    parseTimestamp g "" = none ∧
    (∀ (i j : ℕ) (a b : LogRow), i ≤ j → (sortedRows g rows)[i]? = some a →
      (sortedRows g rows)[j]? = some b →
      parseTimestamp g a.timestamp = none → parseTimestamp g b.timestamp = none) ∧
    (getLatestRow g rows = none ↔ ∀ r ∈ rows, parseTimestamp g r.timestamp = none) ∧
    (∀ r, getLatestRow g rows = some r → r ∈ rows ∧ ∃ t,
      parseTimestamp g r.timestamp = some t ∧
      ∀ r' t', r' ∈ rows → parseTimestamp g r'.timestamp = some t' → t' ≤ t) := by
  refine ⟨rfl, ?_, ?_, ?_⟩
  · intro i j a b hij ha hb hpa
    have hs : List.Pairwise (rowLe g) (sortedRows g rows) :=
      List.sorted_insertionSort (rowLe g) rows
    rcases eq_or_lt_of_le hij with rfl | hlt
    · rw [ha, Option.some_inj] at hb
      subst hb
      exact hpa
    · obtain ⟨hilen, hia⟩ := List.getElem?_eq_some.mp ha
      obtain ⟨hjlen, hjb⟩ := List.getElem?_eq_some.mp hb
      have hr := List.pairwise_iff_getElem.mp hs i j hilen hjlen hlt
      rw [hia, hjb] at hr
      have hta : tKey g a = ⊤ := by
        rw [tKey, hpa]
      have htb : tKey g b = ⊤ := top_le_iff.mp (hta ▸ hr)
      cases hpb : parseTimestamp g b.timestamp with
      | none => rfl
      | some t =>
        rw [tKey, hpb] at htb
        exact absurd htb (WithTop.coe_ne_top)
  · rw [getLatestRow, Option.map_eq_none', List.getLast?_eq_none_iff,
      insertionSort_eq_nil_iff, withDate, List.filterMap_eq_nil_iff]
    simp only [Option.map_eq_none']
  · intro r hr
    rw [getLatestRow] at hr
    obtain ⟨a, ha, hafst⟩ := Option.map_eq_some'.mp hr
    have hpair : List.Pairwise pairLe ((withDate g rows).insertionSort pairLe) :=
      List.sorted_insertionSort pairLe (withDate g rows)
    obtain ⟨haMem, hmax⟩ := getLast?_pairwise hpair ha
    have haW : a ∈ withDate g rows := (List.mem_insertionSort pairLe).mp haMem
    obtain ⟨haRows, haParse⟩ := (withDate_mem g rows a.1 a.2).mp haW
    subst hafst
    refine ⟨haRows, a.2, haParse, ?_⟩
    intro r' t' hr' hp'
    have hxs : (r', t') ∈ (withDate g rows).insertionSort pairLe :=
      (List.mem_insertionSort pairLe).mpr ((withDate_mem g rows r' t').mpr ⟨hr', hp'⟩)
    rcases hmax _ hxs with hle | heq
    · exact hle
    · exact le_of_eq (by rw [← heq])

/-- C7 witness: with one parseable row and two unparseable ones, the row
after an unparseable row in the sorted output is unparseable too, and the
latest row is the parseable one. -/
theorem unparseable_timestamp_policy_witness :
    parseTimestamp gIso "" = none ∧
    parseTimestamp gIso "notadate" = none ∧
    getLatestRow gIso c7Rows = some ⟨"2024-01-01", some 2, none, none, none⟩ := by
  have h := unparseable_timestamp_policy gIso c7Rows
  refine ⟨h.1, ?_, by decide⟩
  exact h.2.1 1 2 ⟨"", some 1, none, none, none⟩ ⟨"notadate", some 3, none, none, none⟩
    (by omega) (by decide) (by decide) (by decide)

/-- C8: the Row Decoder recovers locally and never aborts.  Numeric cells:
absent, empty-string, or coercing to a non-finite number decode to absent,
otherwise to the coerced number.  Timestamp cells: absent or empty decode
to the empty string (never null), plausible epoch numbers in [1e9, 1e15)
decode to the ISO-8601 string at millisecond precision, and any other
non-empty value decodes to its display/string form verbatim. -/
theorem rowDecoder_spec (cell : GvizCell) :
    getCellNumber none = none ∧
    getCellTimestamp none = some "" ∧
    (cell.v = none → getCellNumber (some cell) = none) ∧
    (cell.v = some (.str "") → getCellNumber (some cell) = none) ∧
    (∀ v, cell.v = some v → v ≠ .str "" →
      getCellNumber (some cell)
        = match cellValToNum v with
          | .fin q => some q
          | _ => none) ∧
    (rawOf cell = none → getCellTimestamp (some cell) = some "") ∧
    (rawOf cell = some (.str "") → getCellTimestamp (some cell) = some "") ∧
    (∀ v q, rawOf cell = some v → cellValToNum v = .fin q →
      1000000000 ≤ q → q < 1000000000000000 →
      getCellTimestamp (some cell)
        = some (jsToISOString (ratTrunc (if q < 1000000000000 then q * 1000 else q)))) ∧
    (∀ v, rawOf cell = some v → v ≠ .str "" →
      (match cellValToNum v with
       | .fin q => ¬ (1000000000 ≤ q ∧ q < 1000000000000000)
       | _ => True) →
      getCellTimestamp (some cell) = some (cellFallbackString cell)) ∧
    (getCellTimestamp (some cell)).isSome := by
  refine ⟨rfl, rfl, ?_, ?_, ?_, ?_, ?_, ?_, ?_, getCellTimestamp_isSome (some cell)⟩
  · intro h
    simp only [getCellNumber, h]
  · intro h
    simp [getCellNumber, h]
  · intro v hv hne
    simp only [getCellNumber, hv]
    rw [if_neg hne]
  · intro h
    simp only [getCellTimestamp, h]
  · intro h
    simp [getCellTimestamp, h]
  · intro v q hv hq h1 h2
    simp only [getCellTimestamp, hv]
    have hne : v ≠ .str "" := by
      intro he
      rw [he] at hq
      have h0 := ((by decide : cellValToNum (CellVal.str "") = JSNum.fin 0)).symm.trans hq
      have hq0 := JSNum.fin.inj h0
      rw [← hq0] at h1
      norm_num at h1
    rw [if_neg hne, hq]
    dsimp only
    rw [if_pos ⟨h1, h2⟩]
    simp only [epochMs_valid h1 h2, Option.map_some']
  · intro v hv hne hout
    simp only [getCellTimestamp, hv]
    rw [if_neg hne]
    cases hn : cellValToNum v with
    | fin q =>
      dsimp only
      rw [hn] at hout
      rw [if_neg hout]
    | nan => rfl
    | inf b => rfl

/-- C8 witness: a numeric cell coercing to NaN decodes to absent; an epoch
cell decodes to the ISO string; an absent cell decodes to the empty
string. -/
theorem rowDecoder_spec_witness :
    getCellNumber (some ⟨some (.str "abc"), none⟩) = none ∧
    getCellTimestamp (some ⟨some (.num 1700000000), none⟩)
      = some "2023-11-14T22:13:20.000Z" ∧
    getCellTimestamp none = some "" := by
  have h1 := (rowDecoder_spec ⟨some (.str "abc"), none⟩).2.2.2.2.1
    (.str "abc") rfl (by decide)
  have h2 := (rowDecoder_spec ⟨some (.num 1700000000), none⟩).2.2.2.2.2.2.2.1
    (.num 1700000000) 1700000000 rfl rfl (by decide) (by decide)
  exact ⟨h1.trans (by decide), h2.trans (by decide),
    (rowDecoder_spec ⟨none, none⟩).2.1⟩

/-- C10: for a numeric input in the epoch range [1e9, 1e15) the resulting
millisecond value is always a valid Date time value, so the invalid-construction
branch of the parser never yields null, and the ISO conversion
of the decoder never fails (for any cell at all). -/
theorem epoch_branch_never_null :
    (∀ (g : String → Option ℤ) (s : String) (q : ℚ),
      jsStrToNum (jsTrim s) = .fin q → 1000000000 ≤ q → q < 1000000000000000 →
      parseTimestamp g s ≠ none) ∧
    (∀ c : Option GvizCell, getCellTimestamp c ≠ none) := by
  constructor
  · intro g s q hnum h1 h2 h
    rw [parseTimestamp_epoch_eq g s q hnum h1 h2] at h
    exact Option.noConfusion h
  · intro c h
    have hs := getCellTimestamp_isSome c
    rw [h] at hs
    exact Bool.noConfusion hs

/-- C10 witness: parse does not return null on "1700000000", and the
decoder does not fail on the corresponding numeric cell. -/
theorem epoch_branch_never_null_witness :
    parseTimestamp noDate "1700000000" ≠ none ∧
    getCellTimestamp (some ⟨some (.num 1700000000), none⟩) ≠ none :=
  ⟨epoch_branch_never_null.1 noDate "1700000000" 1700000000
      (by decide) (by decide) (by decide),
   epoch_branch_never_null.2 _⟩
